import Mathlib

/-!
Verification of the tic-tac-toe VM core (block lifecycle and state
transition engine).  The definitions below are a shallow embedding of
the Rust modules `src/timestampvm/src/block/mod.rs` and
`src/timestampvm/src/state/mod.rs`.  Machine integers (u8, u32, u64)
are modelled as `Nat`; wrapping behaviour is made explicit with `%`
by the corresponding modulus where the Rust code can wrap.
-/

/-- Modulus of u64 arithmetic: 2^64.  Written as a literal so that
omega can work with it directly. -/
def U64_MOD : Nat := 18446744073709551616

/-- Modulus of u32 arithmetic: 2^32. -/
def U32_MOD : Nat := 4294967296

/-- All-ones u32 mask: 2^32 - 1 (the value of the bitwise complement
of 0 on u32). -/
def U32_MASK : Nat := 4294967295

/-- Block lifecycle status (avalanche `choices::status::Status` as it
is used by this VM; the external enum's extra data is irrelevant
here).  The default/initial status is `Processing`. -/
inductive Status where
  | Processing
  | Verified
  | Accepted
  | Rejected
deriving DecidableEq, Repr, Inhabited

/-- A block of the chain, from `block/mod.rs`.  `parent_id` and `id`
model `ids::Id` (a 32-byte hash) as `Nat`; `bytes` models the cached
serialized byte vector.  The Rust struct's non-owning back-reference
`state: state::State` is omitted: it is ignored by equality and serde
in the source and is passed explicitly to the lifecycle operations
below. -/
structure Block where
  parent_id : Nat
  height : Nat
  player_move : Nat
  status : Status
  bytes : List Nat
  id : Nat
deriving DecidableEq, Repr

/-- Translates `Block::get_move_index`: `self.player_move & 0b00001111`
(mask by a low power of two is a remainder). -/
def Block.get_move_index (b : Block) : Nat := b.player_move % 16

/-- Translates `Block::get_player_id`: `self.player_move & 0b00010000`,
i.e. bit 4 of the move left in place: 16 * bit4.  The result is the
raw value 0 or 16, not a 0/1 index. -/
def Block.get_player_id (b : Block) : Nat := 16 * (b.player_move / 16 % 2)

/-- Maps from block id to block, modelling the semantics of the Rust
`HashMap<ids::Id, Block>` (insert overwrites, remove deletes). -/
def BlockMap : Type := Nat → Option Block

/-- The empty map (`HashMap::new`). -/
def BlockMap.emptyMap : BlockMap := fun _ => none

/-- Translates `HashMap::insert` (overwriting). -/
def BlockMap.insertB (m : BlockMap) (k : Nat) (v : Block) : BlockMap :=
  fun k' => if k' = k then some v else m k'

/-- Translates `HashMap::remove`. -/
def BlockMap.removeB (m : BlockMap) (k : Nat) : BlockMap :=
  fun k' => if k' = k then none else m k'

/-- The VM state store, from `state/mod.rs` (the `Arc<RwLock<..>>`
wrappers carry no sequential meaning and are dropped; every operation
below takes and returns the store explicitly). -/
structure State where
  curr_game : Nat
  winners : List Nat
  verified_blocks : BlockMap
  blk_map : BlockMap

/-- Translates `State::default`: empty board, no winners, empty maps. -/
def genesisState : State :=
  { curr_game := 0
    winners := []
    verified_blocks := BlockMap.emptyMap
    blk_map := BlockMap.emptyMap }

/-- Translates `State::get_curr_game`. -/
def State.get_curr_game (s : State) : Nat := s.curr_game

/-- Translates `State::get_winner`: `self.winners.get(i).copied()`. -/
def State.get_winner (s : State) (i : Nat) : Option Nat := s.winners.get? i

/-- Translates `State::get_block`: the verified map is consulted first, then the
block map; a miss in both is the error case (modelled as `none`). -/
def State.get_block (s : State) (blk_id : Nat) : Option Block :=
  match s.verified_blocks blk_id with
  | some b => some b
  | none => s.blk_map blk_id

/-- Translates `State::add_verified`. -/
def State.add_verified (s : State) (b : Block) : State :=
  { s with verified_blocks := s.verified_blocks.insertB b.id b }

/-- Translates `State::remove_verified`. -/
def State.remove_verified (s : State) (blk_id : Nat) : State :=
  { s with verified_blocks := s.verified_blocks.removeB blk_id }

/-- Translates `State::has_verified`. -/
def State.has_verified (s : State) (blk_id : Nat) : Bool :=
  (s.verified_blocks blk_id).isSome

/-- Reading one 2-bit cell of the packed board, as the win-check loop
of `State::update_board` does: `0b11 & (val >> (2 * i))`. -/
def read_cell (board i : Nat) : Nat := (board >>> (2 * i)) &&& 3

/-- The first two statements of `State::update_board`:
`*curr_board = *curr_board & !(0b11 << (2 * pos));`
`*curr_board = *curr_board | (player_id << (2 * pos));`
`pos ≤ 15` always (it is a 4-bit value), so the shift amounts stay
below 32; the u32 left shift of `player_id` discards bits shifted
past bit 31, hence the `% U32_MOD`. -/
def write_move (board pos pid : Nat) : Nat :=
  (board &&& (U32_MASK ^^^ (3 <<< (2 * pos)))) ||| ((pid <<< (2 * pos)) % U32_MOD)

/-- The `legal_moves` array of `State::update_board`: the 8 winning
triples (3 rows, 3 columns, 2 diagonals), in source order. -/
def legal_moves : List (Nat × Nat × Nat) :=
  [(0, 1, 2), (3, 4, 5), (6, 7, 8),
   (0, 3, 6), (1, 4, 7), (2, 5, 8),
   (0, 4, 8), (6, 4, 2)]

/-- The win condition checked for one triple by `State::update_board`:
`val_1 == val_2 && val_2 == val_3 && val_1 != 0` on the board the loop
currently sees. -/
def tripleComplete (board : Nat) (t : Nat × Nat × Nat) : Prop :=
  read_cell board t.1 = read_cell board t.2.1 ∧
  read_cell board t.2.1 = read_cell board t.2.2 ∧
  read_cell board t.1 ≠ 0

instance (board : Nat) (t : Nat × Nat × Nat) : Decidable (tripleComplete board t) :=
  inferInstanceAs (Decidable (read_cell board t.1 = read_cell board t.2.1 ∧
    read_cell board t.2.1 = read_cell board t.2.2 ∧ read_cell board t.1 ≠ 0))

/-- The zero test of the loop's `else if` branch:
`val_1 == 0 || val_2 == 0 || val_3 == 0`. -/
def anyZero (board : Nat) (t : Nat × Nat × Nat) : Prop :=
  read_cell board t.1 = 0 ∨ read_cell board t.2.1 = 0 ∨ read_cell board t.2.2 = 0

instance (board : Nat) (t : Nat × Nat × Nat) : Decidable (anyZero board t) :=
  inferInstanceAs (Decidable (read_cell board t.1 = 0 ∨ read_cell board t.2.1 = 0 ∨
    read_cell board t.2.2 = 0))

/-- The `for possible_win in legal_moves` loop of `State::update_board`,
threading the mutable loop state `(curr_board, winners, seen_zero)`.
On a win the mover's `player_id` is pushed and the board is reset to 0
before the remaining triples are examined; on a seen zero the flag is
set to 1. -/
def win_loop (pid : Nat) : List (Nat × Nat × Nat) → Nat → List Nat → Nat → Nat × List Nat × Nat
  | [], board, ws, sz => (board, ws, sz)
  | t :: rest, board, ws, sz =>
    if tripleComplete board t then
      win_loop pid rest 0 (ws ++ [pid]) sz
    else if anyZero board t then
      win_loop pid rest board ws 1
    else
      win_loop pid rest board ws sz

/-- Translates `State::update_board`: apply the move to the board, run the
win-check loop, and finally reset the board to 0 when `seen_zero`
stayed 0 (full board). -/
def State.update_board (s : State) (b : Block) : State :=
  let pos := b.get_move_index
  let pid := b.get_player_id
  let moved := write_move s.curr_game pos pid
  let r := win_loop pid legal_moves moved s.winners 0
  { s with
    curr_game := if r.2.2 = 0 then 0 else r.1
    winners := r.2.1 }

/-- Verification failures of `Block::verify` (the three distinct error
returns of the source). -/
inductive VerifyErr where
  | UnknownParent
  | InvalidHeight
  | IllegalMove
deriving DecidableEq, Repr

/-- Translates `Block::verify`.  The early return succeeds when the block id is
already known to the store.  The height test is the source's
`parent_block.height != self.height - 1` on u64, so the subtraction
wraps at height 0 (release-mode semantics), modelled by adding
`U64_MOD - 1` modulo `U64_MOD`.  The occupancy test is the source's
`(curr_game >> (2 * pos)) & 0b111` (a 3-bit mask).  On success the
source calls the async `State::add_verified` without awaiting it, so
the returned future is dropped and the store is not modified; the
model therefore returns the store unchanged. -/
def Block.verify (b : Block) (s : State) : Except VerifyErr State :=
  match s.get_block b.id with
  | some _ => .ok s
  | none =>
    match s.get_block b.parent_id with
    | none => .error VerifyErr.UnknownParent
    | some parent =>
      if parent.height ≠ (b.height + (U64_MOD - 1)) % U64_MOD then
        .error VerifyErr.InvalidHeight
      else if (s.get_curr_game >>> (2 * b.get_move_index)) &&& 7 ≠ 0 then
        .error VerifyErr.IllegalMove
      else
        .ok s

/-- Translates `Block::accept`: set the status to Accepted, then delegate to
`State::update_board` (which always returns Ok). -/
def Block.accept (b : Block) (s : State) : Block × State :=
  let b' := { b with status := Status.Accepted }
  (b', s.update_board b')

/-- Translates `Block::reject`: the source sets the status to `Accepted` (not
`Rejected`), then removes the block id from the verified map. -/
def Block.reject (b : Block) (s : State) : Block × State :=
  let b' := { b with status := Status.Accepted }
  (b', s.remove_verified b.id)

/-- All nine cells of the board are occupied (each 2-bit slot is
nonzero); the "full board" notion of the specification. -/
def boardFull (board : Nat) : Bool :=
  (List.range 9).all fun c => !(read_cell board c == 0)

/-- A run of the consensus engine accepting a sequence of blocks in
order, starting from a given store: the step from one store to the
next is `Block::accept`. -/
inductive AcceptSeq : State → List Block → State → Prop
  | nil (s : State) : AcceptSeq s [] s
  | cons (s : State) (b : Block) (rest : List Block) (s' : State) :
      AcceptSeq (b.accept s).2 rest s' → AcceptSeq s (b :: rest) s'

/-- Decimal rendering of a number as ASCII bytes (most significant
digit first), used by the canonical serialization model below. -/
def encNat (n : Nat) : List Nat :=
  ((Nat.digits 10 n).map (fun d => d + 48)).reverse

/-- Inverse of `encNat`: read ASCII decimal bytes back into a number. -/
def decNat (l : List Nat) : Nat :=
  Nat.ofDigits 10 ((l.map (fun d => d - 48)).reverse)

/-- Modelled from the external serde_json crate: `Block::to_vec`
serializes exactly the non-skipped fields `parent_id`, `height`,
`player_move` into a canonical byte sequence.  The model renders the
three fields in declaration order as decimal numbers separated by the
comma byte 44; what the claims rely on is that the encoding is
canonical and invertible, as JSON encoding of these fields is. -/
def Block.to_vec (parent_id height player_move : Nat) : List Nat :=
  encNat parent_id ++ 44 :: (encNat height ++ 44 :: encNat player_move)

/-- Modelled from the external avalanche-types crate:
`ids::Id::sha256`, the content hash of a byte sequence.  The claims
only need that equal bytes hash to equal ids, which holds for any
function; this stand-in reads the bytes as base-256 digits. -/
def sha256 (l : List Nat) : Nat := Nat.ofDigits 256 l

/-- Translates `Block::try_new`: build the block, serialize it to its canonical
bytes, and hash those bytes to obtain the id.  Serialization of
well-formed fields cannot fail, so the model is total. -/
def Block.try_new (parent_id height player_move : Nat) (status : Status) : Block :=
  let bs := Block.to_vec parent_id height player_move
  { parent_id := parent_id
    height := height
    player_move := player_move
    status := status
    bytes := bs
    id := sha256 bs }

/-- Splits a byte list at each comma byte 44 (helper for the decoder
model, accumulating the current field in reverse). -/
def splitCommaAux : List Nat → List Nat → List (List Nat)
  | [], acc => [acc.reverse]
  | x :: rest, acc =>
    if x = 44 then acc.reverse :: splitCommaAux rest []
    else splitCommaAux rest (x :: acc)

/-- Splits a byte list at each comma byte 44. -/
def splitComma (l : List Nat) : List (List Nat) := splitCommaAux l []

/-- Translates `Block::from_slice`: parse the canonical bytes back into a block,
keep the raw input as the block's bytes, and recompute the id as the
hash of the raw input bytes.  The skipped fields (`status`, `bytes`,
`id`) are not read from the wire: `status` gets its default value.
Malformed input is the error case (modelled as `none`). -/
def Block.from_slice (d : List Nat) : Option Block :=
  match splitComma d with
  | [a, b, c] =>
    some { parent_id := decNat a
           height := decNat b
           player_move := decNat c
           status := default
           bytes := d
           id := sha256 d }
  | _ => none

/-! Concrete blocks and stores used to instantiate the theorems. -/

/-- A block encoding the move (cell 0, player 0): `player_move` 0. -/
def blkP0C0 : Block :=
  { parent_id := 0, height := 1, player_move := 0
    status := Status.Processing, bytes := [], id := 2 }

/-- A parent block at height 0, with id 1. -/
def blkParent : Block :=
  { parent_id := 0, height := 0, player_move := 0
    status := Status.Accepted, bytes := [], id := 1 }

/-- A store whose committed map holds `blkParent` and whose board is
16: the board produced by accepting player 1's move at cell 0 on the
empty board, so only cell 2 is occupied (with value 1). -/
def stBoard16 : State :=
  { curr_game := 16, winners := []
    verified_blocks := BlockMap.emptyMap
    blk_map := BlockMap.emptyMap.insertB 1 blkParent }

/-- A candidate block moving at cell 1 (player 0), child of
`blkParent`. -/
def blkP0C1 : Block :=
  { parent_id := 1, height := 1, player_move := 1
    status := Status.Processing, bytes := [], id := 2 }

/-- A candidate block with height 5, child of `blkParent` (whose
height is 0), so its height check must fail. -/
def blkBadHeight : Block :=
  { parent_id := 1, height := 5, player_move := 0
    status := Status.Processing, bytes := [], id := 3 }

/-- A store whose board is 1365: cells 0 through 5 all hold the value
1, so both the row (0,1,2) and the row (3,4,5) are complete. -/
def stDoubleLine : State :=
  { curr_game := 1365, winners := []
    verified_blocks := BlockMap.emptyMap
    blk_map := BlockMap.emptyMap }

/-- A block encoding the move (cell 8, player 0): `player_move` 8. -/
def blkP0C8 : Block :=
  { parent_id := 0, height := 1, player_move := 8
    status := Status.Processing, bytes := [], id := 4 }

/-- A store whose board is 158105: the full board with cell values
1,2,1,2,1,2,2,1,2 (cells 0..8), which contains no complete triple. -/
def stFullDraw : State :=
  { curr_game := 158105, winners := []
    verified_blocks := BlockMap.emptyMap
    blk_map := BlockMap.emptyMap }

/-- A block with `player_move` 30: move index 14 (out of the grid) and
player bit 16; applying it leaves board 158105 unchanged, since the
left shift of the player bit by 28 overflows u32 to 0. -/
def blkDraw : Block :=
  { parent_id := 0, height := 1, player_move := 30
    status := Status.Processing, bytes := [], id := 5 }

/-- A verified block (player 1 at cell 0), with id 7. -/
def blkVerifiedA : Block :=
  { parent_id := 1, height := 1, player_move := 16
    status := Status.Verified, bytes := [], id := 7 }

/-- The store holding `blkVerifiedA` in its verified map. -/
def stWithVerified : State := genesisState.add_verified blkVerifiedA

/-- Player 1 moves at cell 4 (`player_move` 20): the buggy board write
marks cell 6. -/
def blkW1 : Block :=
  { parent_id := 0, height := 1, player_move := 20
    status := Status.Processing, bytes := [], id := 11 }

/-- Player 1 moves at cell 2 (`player_move` 18): the buggy board write
marks cell 4. -/
def blkW2 : Block :=
  { parent_id := 0, height := 2, player_move := 18
    status := Status.Processing, bytes := [], id := 12 }

/-- Player 1 moves at cell 0 (`player_move` 16): the buggy board write
marks cell 2, completing the diagonal (6,4,2). -/
def blkW3 : Block :=
  { parent_id := 0, height := 3, player_move := 16
    status := Status.Processing, bytes := [], id := 13 }

/-! Helper lemmas. -/

theorem read_cell_zero (i : Nat) : read_cell 0 i = 0 := by
  simp [read_cell]

theorem not_tripleComplete_zero (t : Nat × Nat × Nat) : ¬ tripleComplete 0 t := by
  simp [tripleComplete, read_cell_zero]

theorem anyZero_zero (t : Nat × Nat × Nat) : anyZero 0 t := by
  simp [anyZero, read_cell_zero]

theorem win_loop_zero_board (pid : Nat) (ts : List (Nat × Nat × Nat)) (ws : List Nat)
    (sz : Nat) :
    (win_loop pid ts 0 ws sz).1 = 0 ∧ (win_loop pid ts 0 ws sz).2.1 = ws := by
  induction ts generalizing sz with
  | nil => exact ⟨rfl, rfl⟩
  | cons t rest ih =>
    rw [win_loop, if_neg (not_tripleComplete_zero t), if_pos (anyZero_zero t)]
    exact ih 1

theorem win_loop_wins (pid : Nat) (ts : List (Nat × Nat × Nat)) (board : Nat)
    (ws : List Nat) (sz : Nat) (h : ∃ t ∈ ts, tripleComplete board t) :
    (win_loop pid ts board ws sz).1 = 0 ∧
    (win_loop pid ts board ws sz).2.1 = ws ++ [pid] := by
  revert h
  induction ts generalizing ws sz with
  | nil => intro h; simp at h
  | cons t rest ih =>
    intro h
    by_cases hc : tripleComplete board t
    · rw [win_loop, if_pos hc]
      exact win_loop_zero_board pid rest (ws ++ [pid]) sz
    · have hr : ∃ u ∈ rest, tripleComplete board u := by
        rcases h with ⟨u, hu, hcu⟩
        rcases List.mem_cons.mp hu with rfl | hu'
        · exact absurd hcu hc
        · exact ⟨u, hu', hcu⟩
      by_cases hz : anyZero board t
      · rw [win_loop, if_neg hc, if_pos hz]
        exact ih ws 1 hr
      · rw [win_loop, if_neg hc, if_neg hz]
        exact ih ws sz hr

theorem win_loop_no_win (pid : Nat) (ts : List (Nat × Nat × Nat)) (board : Nat)
    (ws : List Nat) (sz : Nat) (h : ∀ t ∈ ts, ¬ tripleComplete board t) :
    win_loop pid ts board ws sz =
      (board, ws, if ∃ t ∈ ts, anyZero board t then 1 else sz) := by
  revert h
  induction ts generalizing sz with
  | nil => intro _; simp [win_loop]
  | cons t rest ih =>
    intro h
    have hc : ¬ tripleComplete board t := h t (by simp)
    have hrest : ∀ u ∈ rest, ¬ tripleComplete board u := fun u hu => h u (by simp [hu])
    by_cases hz : anyZero board t
    · have hcons : ∃ u ∈ t :: rest, anyZero board u := ⟨t, by simp, hz⟩
      rw [win_loop, if_neg hc, if_pos hz, ih 1 hrest, ite_self, if_pos hcons]
    · have hiff : (∃ u ∈ t :: rest, anyZero board u) ↔ ∃ u ∈ rest, anyZero board u := by
        constructor
        · rintro ⟨u, hu, hzu⟩
          rcases List.mem_cons.mp hu with rfl | hu'
          · exact absurd hzu hz
          · exact ⟨u, hu', hzu⟩
        · rintro ⟨u, hu, hzu⟩
          exact ⟨u, by simp [hu], hzu⟩
      rw [win_loop, if_neg hc, if_neg hz, ih sz hrest]
      simp only [hiff]

theorem boardFull_iff (board : Nat) :
    boardFull board = true ↔ ∀ c < 9, read_cell board c ≠ 0 := by
  simp [boardFull, List.all_eq_true, List.mem_range]

theorem exists_zero_cell_iff (board : Nat) :
    (∃ t ∈ legal_moves, anyZero board t) ↔ ∃ c < 9, read_cell board c = 0 := by
  constructor
  · rintro ⟨t, ht, hz⟩
    simp only [anyZero] at hz
    fin_cases ht <;> rcases hz with h | h | h <;>
      exact ⟨_, by norm_num, h⟩
  · rintro ⟨c, hc, h⟩
    interval_cases c
    · exact ⟨(0, 1, 2), by simp [legal_moves], Or.inl h⟩
    · exact ⟨(0, 1, 2), by simp [legal_moves], Or.inr (Or.inl h)⟩
    · exact ⟨(0, 1, 2), by simp [legal_moves], Or.inr (Or.inr h)⟩
    · exact ⟨(3, 4, 5), by simp [legal_moves], Or.inl h⟩
    · exact ⟨(3, 4, 5), by simp [legal_moves], Or.inr (Or.inl h)⟩
    · exact ⟨(3, 4, 5), by simp [legal_moves], Or.inr (Or.inr h)⟩
    · exact ⟨(6, 7, 8), by simp [legal_moves], Or.inl h⟩
    · exact ⟨(6, 7, 8), by simp [legal_moves], Or.inr (Or.inl h)⟩
    · exact ⟨(6, 7, 8), by simp [legal_moves], Or.inr (Or.inr h)⟩

/-! Claim theorems. -/

/-- Claim C1 (code bug): accepting the move (cell 0, player 0) on the
empty board leaves the board at 0, so bits 0-1 of the board are 0, not
1 as the claim states.  The player-0 marker extracted by
`Block::get_player_id` is 0, so the OR write puts nothing into the
cleared slot. -/
theorem update_board_empty_player_zero :
    (genesisState.update_board blkP0C0).curr_game = 0 ∧
    read_cell (genesisState.update_board blkP0C0).curr_game 0 = 0 := by
  exact ⟨rfl, rfl⟩

/-- Claim C2 (code bug): on the board 16 (reachable by accepting
player 1's move at cell 0 from the empty board; only cell 2 is
occupied), a block moving at cell 1 with present parent, fresh id and
correct height is rejected with IllegalMove by `Block::verify`, even
though the 2-bit slot at cell 1 is 0: the source masks the occupancy
test with 0b111 (three bits), which also reads the low bit of the
neighbouring cell 2. -/
theorem verify_illegal_beyond_slot :
    blkP0C1.verify stBoard16 = Except.error VerifyErr.IllegalMove ∧
    read_cell stBoard16.curr_game blkP0C1.get_move_index = 0 := by
  exact ⟨rfl, rfl⟩

/-- Claim C5 (code bug): `Block::reject` sets the block status to
Accepted, not Rejected; it does remove the block id from the verified
map and leaves the board and winners untouched. -/
theorem reject_sets_accepted :
    (blkVerifiedA.reject stWithVerified).1.status = Status.Accepted ∧
    (blkVerifiedA.reject stWithVerified).1.status ≠ Status.Rejected ∧
    (blkVerifiedA.reject stWithVerified).2.verified_blocks blkVerifiedA.id = none ∧
    (blkVerifiedA.reject stWithVerified).2.curr_game = stWithVerified.curr_game ∧
    (blkVerifiedA.reject stWithVerified).2.winners = stWithVerified.winners := by
  exact ⟨rfl, by decide, rfl, rfl, rfl⟩

/-- Claim C6, counterexample: a verified block that is then accepted
stays in the verified map — `Block::accept` does not move it out —
and accept inserts nothing into the committed map either. -/
theorem accept_keeps_verified_entry :
    ((blkVerifiedA.accept stWithVerified).2.verified_blocks blkVerifiedA.id).isSome = true ∧
    (blkVerifiedA.accept stWithVerified).2.blk_map blkVerifiedA.id = none := by
  exact ⟨rfl, rfl⟩

/-- Claim C6, amended: `Block::accept` leaves both the verified map
and the committed map exactly as they were (it only touches the board
and the winners), so a block id is in both maps after accept only if
it already was before. -/
theorem accept_preserves_maps (s : State) (b : Block) :
    (b.accept s).2.verified_blocks = s.verified_blocks ∧
    (b.accept s).2.blk_map = s.blk_map := by
  exact ⟨rfl, rfl⟩

/-- Claim C3, counterexample: on the board 1365 (cells 0..5 all hold
1) the accepted move (cell 8, player 0) leaves a post-move board on
which both the triple (0,1,2) and the triple (3,4,5) are complete,
yet only ONE winners entry is appended, not one per completed line:
the first complete triple resets the board to 0 and the later triples
are checked against the reset board. -/
theorem double_line_single_append :
    tripleComplete
      (write_move stDoubleLine.curr_game blkP0C8.get_move_index blkP0C8.get_player_id)
      (0, 1, 2) ∧
    tripleComplete
      (write_move stDoubleLine.curr_game blkP0C8.get_move_index blkP0C8.get_player_id)
      (3, 4, 5) ∧
    (stDoubleLine.update_board blkP0C8).winners = [blkP0C8.get_player_id] ∧
    (stDoubleLine.update_board blkP0C8).winners.length = 1 := by
  refine ⟨by decide, by decide, by decide, by decide⟩

/-- Claim C3, amended: during accept the 8 triples are checked in a
fixed order against the evolving board; if any triple of the post-move
board is complete (all three slots equal and nonzero), the first such
triple appends the mover's player identity to winners exactly once
and resets the board to 0, and the triples checked after the reset see
the empty board, so exactly one winners entry is appended per accept
even when the move completes more than one line. -/
theorem update_board_win_single_append (s : State) (b : Block)
    (h : ∃ t ∈ legal_moves,
      tripleComplete (write_move s.curr_game b.get_move_index b.get_player_id) t) :
    (s.update_board b).curr_game = 0 ∧
    (s.update_board b).winners = s.winners ++ [b.get_player_id] := by
  have hw := win_loop_wins b.get_player_id legal_moves
    (write_move s.curr_game b.get_move_index b.get_player_id) s.winners 0 h
  simp only [State.update_board]
  rw [hw.1, hw.2, ite_self]
  exact ⟨rfl, rfl⟩

/-- Witness for the amended claim C3 at the concrete double-line
input. -/
theorem update_board_win_single_append_inst :
    (∃ t ∈ legal_moves,
      tripleComplete
        (write_move stDoubleLine.curr_game blkP0C8.get_move_index blkP0C8.get_player_id) t) ∧
    ((stDoubleLine.update_board blkP0C8).curr_game = 0 ∧
     (stDoubleLine.update_board blkP0C8).winners =
       stDoubleLine.winners ++ [blkP0C8.get_player_id]) := by
  exact ⟨⟨(0, 1, 2), by decide, by decide⟩,
    update_board_win_single_append stDoubleLine blkP0C8 ⟨(0, 1, 2), by decide, by decide⟩⟩

/-- Claim C7: on accept, when no triple of the post-move board is
complete, the board resets to 0 if all 9 cells are occupied (a draw)
and stays at the post-move board otherwise, and in both cases no
winner is appended. -/
theorem update_board_no_win_cases (s : State) (b : Block)
    (h : ∀ t ∈ legal_moves,
      ¬ tripleComplete (write_move s.curr_game b.get_move_index b.get_player_id) t) :
    (s.update_board b).curr_game =
      (if boardFull (write_move s.curr_game b.get_move_index b.get_player_id) then 0
       else write_move s.curr_game b.get_move_index b.get_player_id) ∧
    (s.update_board b).winners = s.winners := by
  simp only [State.update_board]
  rw [win_loop_no_win _ _ _ _ _ h]
  by_cases hf : boardFull (write_move s.curr_game b.get_move_index b.get_player_id)
  · have hnz : ¬ ∃ t ∈ legal_moves,
        anyZero (write_move s.curr_game b.get_move_index b.get_player_id) t := by
      rw [exists_zero_cell_iff]
      rintro ⟨c, hc, h0⟩
      exact (boardFull_iff _).mp hf c hc h0
    rw [if_neg hnz, if_pos hf]
    exact ⟨rfl, rfl⟩
  · have hz : ∃ t ∈ legal_moves,
        anyZero (write_move s.curr_game b.get_move_index b.get_player_id) t := by
      rw [exists_zero_cell_iff]
      by_contra hno
      push_neg at hno
      exact hf ((boardFull_iff _).mpr fun c hc => hno c hc)
    rw [if_pos hz, if_neg hf]
    exact ⟨by norm_num, rfl⟩

/-- Witness for claim C7 at a concrete full, drawn board: board
158105 holds the cell values 1,2,1,2,1,2,2,1,2, no triple is
complete, and the accepted block with move 30 leaves the board value
unchanged before the draw check, so the board resets to 0 with no
winner appended. -/
theorem update_board_no_win_cases_inst :
    (∀ t ∈ legal_moves,
      ¬ tripleComplete (write_move stFullDraw.curr_game blkDraw.get_move_index blkDraw.get_player_id) t) ∧
    ((stFullDraw.update_board blkDraw).curr_game =
      (if boardFull (write_move stFullDraw.curr_game blkDraw.get_move_index blkDraw.get_player_id) then 0
       else write_move stFullDraw.curr_game blkDraw.get_move_index blkDraw.get_player_id) ∧
     (stFullDraw.update_board blkDraw).winners = stFullDraw.winners) := by
  exact ⟨by decide, update_board_no_win_cases stFullDraw blkDraw (by decide)⟩

/-- Claim C4: with a fresh block id, a found parent and u64 heights,
`Block::verify` fails with InvalidHeight exactly when the candidate's
height differs from the parent's height plus one in wrapping u64
arithmetic; in particular a candidate height of 0 is covered (the
source's `self.height - 1` wraps at 0, matching the wrapping sum). -/
theorem verify_invalid_height_iff (s : State) (b parent : Block)
    (h1 : s.get_block b.id = none) (h2 : s.get_block b.parent_id = some parent)
    (h3 : parent.height < U64_MOD) (h4 : b.height < U64_MOD) :
    (b.verify s = Except.error VerifyErr.InvalidHeight) ↔
      b.height ≠ (parent.height + 1) % U64_MOD := by
  simp only [Block.verify, h1, h2]
  simp only [U64_MOD] at h3 h4 ⊢
  split_ifs with hh hb
  · simp only [true_iff]
    omega
  · simp only [Except.error.injEq, reduceCtorEq, false_iff, not_not]
    omega
  · simp only [Except.error.injEq, reduceCtorEq, false_iff, not_not]
    omega

/-- Witness for claim C4: `blkBadHeight` (height 5, parent height 0)
satisfies the hypotheses on `stBoard16`, and its height check indeed
fails. -/
theorem verify_invalid_height_iff_inst :
    stBoard16.get_block blkBadHeight.id = none ∧
    stBoard16.get_block blkBadHeight.parent_id = some blkParent ∧
    blkParent.height < U64_MOD ∧ blkBadHeight.height < U64_MOD ∧
    ((blkBadHeight.verify stBoard16 = Except.error VerifyErr.InvalidHeight) ↔
      blkBadHeight.height ≠ (blkParent.height + 1) % U64_MOD) := by
  refine ⟨rfl, rfl, by decide, by decide, ?_⟩
  exact verify_invalid_height_iff stBoard16 blkBadHeight blkParent rfl rfl
    (by decide) (by decide)

theorem acceptSeq_det_aux (s : State) (bs : List Block) (s1 s2 : State)
    (h1 : AcceptSeq s bs s1) (h2 : AcceptSeq s bs s2) : s1 = s2 := by
  induction h1 generalizing s2 with
  | nil s => cases h2; rfl
  | cons s b rest s' h ih =>
    cases h2 with
    | cons _ _ _ _ h2' => exact ih s2 h2'

/-- Claim C8: the board-update rule is deterministic — two runs that
accept the same sequence of blocks starting from the default store
(empty board, empty winners) end with identical board and winners. -/
theorem accept_seq_deterministic (bs : List Block) (s1 s2 : State)
    (h1 : AcceptSeq genesisState bs s1) (h2 : AcceptSeq genesisState bs s2) :
    s1.curr_game = s2.curr_game ∧ s1.winners = s2.winners := by
  rw [acceptSeq_det_aux genesisState bs s1 s2 h1 h2]
  exact ⟨rfl, rfl⟩

/-- Witness for claim C8 on the one-block sequence containing
`blkP0C0`. -/
theorem accept_seq_deterministic_inst :
    ((blkP0C0.accept genesisState).2).curr_game = ((blkP0C0.accept genesisState).2).curr_game ∧
    ((blkP0C0.accept genesisState).2).winners = ((blkP0C0.accept genesisState).2).winners :=
  accept_seq_deterministic [blkP0C0] _ _
    (AcceptSeq.cons _ _ _ _ (AcceptSeq.nil _)) (AcceptSeq.cons _ _ _ _ (AcceptSeq.nil _))

theorem get_player_id_cases (b : Block) : b.get_player_id = 0 ∨ b.get_player_id = 16 := by
  unfold Block.get_player_id
  omega

theorem win_loop_winners_mem (pid : Nat) (ts : List (Nat × Nat × Nat)) (board : Nat)
    (ws : List Nat) (sz : Nat) (x : Nat)
    (hx : x ∈ (win_loop pid ts board ws sz).2.1) : x ∈ ws ∨ x = pid := by
  revert hx
  induction ts generalizing board ws sz with
  | nil => intro hx; exact Or.inl hx
  | cons t rest ih =>
    intro hx
    rw [win_loop] at hx
    split at hx
    · rcases ih 0 (ws ++ [pid]) sz hx with hw | hp
      · rcases List.mem_append.mp hw with h | h
        · exact Or.inl h
        · exact Or.inr (List.mem_singleton.mp h)
      · exact Or.inr hp
    · split at hx
      · exact ih board ws 1 hx
      · exact ih board ws sz hx

theorem update_board_winners_mem (s : State) (b : Block) (x : Nat)
    (hx : x ∈ (s.update_board b).winners) : x ∈ s.winners ∨ x = 0 ∨ x = 16 := by
  simp only [State.update_board] at hx
  rcases win_loop_winners_mem _ _ _ _ _ x hx with h | h
  · exact Or.inl h
  · subst h
    exact Or.inr (get_player_id_cases b)

theorem acceptSeq_winners_inv (s : State) (bs : List Block) (s' : State)
    (h : AcceptSeq s bs s') (hs : ∀ y ∈ s.winners, y = 0 ∨ y = 16) :
    ∀ y ∈ s'.winners, y = 0 ∨ y = 16 := by
  induction h with
  | nil s => exact hs
  | cons s b rest s2 h ih =>
    apply ih
    intro y hy
    rcases update_board_winners_mem s { b with status := Status.Accepted } y hy with h0 | h0
    · exact hs y h0
    · exact h0

/-- Claim C10: along any run of accepted blocks from the default
store, every winners entry — hence every value `State::get_winner`
returns — is the raw player-identity bit of the winning accept's
move: exactly 0 or 16, never a normalized 0/1 index. -/
theorem winners_raw_player_bit (bs : List Block) (s' : State) (i x : Nat)
    (hrun : AcceptSeq genesisState bs s') (hx : s'.get_winner i = some x) :
    x = 0 ∨ x = 16 := by
  have hmem : x ∈ s'.winners := by
    unfold State.get_winner at hx
    exact List.get?_mem hx
  exact acceptSeq_winners_inv genesisState bs s' hrun (by intro y hy; simp [genesisState] at hy)
    x hmem

/-- Witness for claim C10: the three player-1 moves 20, 18, 16
(cells 4, 2, 0) mark cells 6, 4, 2 through the shifted board write and
complete the diagonal (6,4,2); the recorded winner is the raw value
16. -/
theorem winners_raw_player_bit_inst :
    ((blkW3.accept ((blkW2.accept ((blkW1.accept genesisState).2)).2)).2).get_winner 0 =
      some 16 ∧ (16 = 0 ∨ 16 = 16) := by
  refine ⟨by decide, ?_⟩
  exact winners_raw_player_bit [blkW1, blkW2, blkW3] _ 0 16
    (AcceptSeq.cons _ _ _ _ (AcceptSeq.cons _ _ _ _ (AcceptSeq.cons _ _ _ _ (AcceptSeq.nil _))))
    (by decide)

theorem encNat_ne_comma (n : Nat) : ∀ x ∈ encNat n, x ≠ 44 := by
  intro x hx
  simp only [encNat, List.mem_reverse, List.mem_map] at hx
  obtain ⟨d, _, rfl⟩ := hx
  omega

theorem splitCommaAux_no_comma (xs acc : List Nat) (h : ∀ x ∈ xs, x ≠ 44) :
    splitCommaAux xs acc = [acc.reverse ++ xs] := by
  induction xs generalizing acc with
  | nil => simp [splitCommaAux]
  | cons x rest ih =>
    have hx : x ≠ 44 := h x (by simp)
    rw [splitCommaAux, if_neg hx, ih (x :: acc) (fun y hy => h y (by simp [hy]))]
    simp

theorem splitCommaAux_comma (xs rest acc : List Nat) (h : ∀ x ∈ xs, x ≠ 44) :
    splitCommaAux (xs ++ 44 :: rest) acc =
      (acc.reverse ++ xs) :: splitCommaAux rest [] := by
  induction xs generalizing acc with
  | nil => simp [splitCommaAux]
  | cons x xs' ih =>
    have hx : x ≠ 44 := h x (by simp)
    rw [List.cons_append, splitCommaAux, if_neg hx,
      ih (x :: acc) (fun y hy => h y (by simp [hy]))]
    simp

theorem decNat_encNat (n : Nat) : decNat (encNat n) = n := by
  have hmap : ∀ l : List Nat,
      List.map ((fun d : Nat => d - 48) ∘ fun d : Nat => d + 48) l = l := by
    intro l
    induction l with
    | nil => rfl
    | cons a l ih => simp only [List.map_cons, Function.comp_apply, Nat.add_sub_cancel, ih]
  simp only [decNat, encNat, List.map_reverse, List.reverse_reverse, List.map_map]
  rw [hmap, Nat.ofDigits_digits]

theorem splitComma_to_vec (p hgt m : Nat) :
    splitComma (Block.to_vec p hgt m) = [encNat p, encNat hgt, encNat m] := by
  unfold splitComma Block.to_vec
  rw [splitCommaAux_comma _ _ _ (encNat_ne_comma p),
    splitCommaAux_comma _ _ _ (encNat_ne_comma hgt),
    splitCommaAux_no_comma _ _ (encNat_ne_comma m)]
  simp

/-- Claim C9: deserializing the bytes of a freshly constructed block
recovers a block agreeing with the original on parent_id, height,
player_move, bytes and id — every observable field except the
transient status, which is not serialized. -/
theorem block_round_trip (pid hgt pm : Nat) (st : Status) :
    ∃ b', Block.from_slice (Block.try_new pid hgt pm st).bytes = some b' ∧
      b'.parent_id = (Block.try_new pid hgt pm st).parent_id ∧
      b'.height = (Block.try_new pid hgt pm st).height ∧
      b'.player_move = (Block.try_new pid hgt pm st).player_move ∧
      b'.bytes = (Block.try_new pid hgt pm st).bytes ∧
      b'.id = (Block.try_new pid hgt pm st).id := by
  refine ⟨{ parent_id := decNat (encNat pid)
            height := decNat (encNat hgt)
            player_move := decNat (encNat pm)
            status := default
            bytes := Block.to_vec pid hgt pm
            id := sha256 (Block.to_vec pid hgt pm) }, ?_, ?_, ?_, ?_, ?_, ?_⟩
  · simp [Block.from_slice, Block.try_new, splitComma_to_vec]
  · simp [Block.try_new, decNat_encNat]
  · simp [Block.try_new, decNat_encNat]
  · simp [Block.try_new, decNat_encNat]
  · simp [Block.try_new]
  · simp [Block.try_new]
